import Mathlib

/-!
Verification of the pydantic-compatibility façade module `_compat.py`.

The module under study is a version-dispatch façade: at load time it computes
a flag `PYDANTIC_V2` from the installed upstream version string, and every
exported operation is a two-way branch on that flag, delegating to the v2
method of the upstream object (e.g. `model_validate`, `model_dump`) or to the
v1 method (e.g. `parse_obj`, `dict`).

Upstream pydantic itself is not part of the repository.  We therefore embed
the façade over *abstract* upstream method tables (a model class / a model
instance / a field-metadata object is represented by the record of the
methods and attributes the façade reads), and, where a claim depends on the
behaviour of upstream itself, we add definitions explicitly modelled from the
specification text.
-/

/-- A dynamic (Python-level) value: enough of `Any` for the façade's
data flow.  `pyUndef` is the upstream undefined sentinel
(`pydantic_core.PydanticUndefined`). -/
inductive Value where
  | pyNone
  | pyUndef
  | pyBool (b : Bool)
  | pyInt (n : Int)
  | pyStr (s : String)
  deriving DecidableEq, Repr

/-- A Python exception as observed through the façade: upstream validation
errors, and the interpreter's error for calling a non-callable object. -/
inductive PyExc where
  | validationError (msg : String)
  | typeErrorNotCallable
  deriving DecidableEq, Repr

/-- A type annotation, as inspected by the typing helpers: a plain type, a
generic application, or a union of alternatives. -/
inductive PType where
  | base (name : String)
  | generic (origin : String) (args : List PType)
  | unionT (args : List PType)

/-- A model configuration object (contents are opaque to the façade; it only
forwards them). -/
def Cfg := List (String × Value)

/-- The field-metadata object as the façade sees it: the record of the
attributes and zero-argument methods read by `field_is_required`,
`field_get_default` and `field_outer_type`.  `is_required` and `annot` are
the v2 API (`annot` stands for the v2 attribute spelled `annotation` in the
source); `required` and `outer_type_` are the v1 API; `get_default` exists in
both and may yield the undefined sentinel. -/
structure FieldInfo where
  is_required : Bool
  required : Bool
  get_default : Value
  annot : PType
  outer_type_ : PType

/-- A model class as the façade sees it: the record of classmethods and
class attributes read by `parse_obj`, `get_model_config` and
`get_model_fields`.  `model_validate`, `model_config`, `model_fields` are the
v2 API; `parse_obj`, `dunder_config` (`__config__`), `dunder_fields`
(`__fields__`) are the v1 API. -/
structure ModelClass (M : Type) where
  model_validate : Value → Except PyExc M
  parse_obj : Value → Except PyExc M
  model_config : Cfg
  dunder_config : Cfg
  model_fields : List (String × FieldInfo)
  dunder_fields : List (String × FieldInfo)

/-- The copy methods of a model instance: `model_copy` is the v2 method,
`copy` the v1 method. -/
structure CopyOps (M : Type) where
  model_copy : M → M
  copy : M → M

/-- The serialization methods of a model instance: `model_dump_json` /
`model_dump` are the v2 methods, `json` / `dict` the v1 methods. -/
structure DumpOps (M : Type) where
  model_dump_json : M → String
  json : M → String
  model_dump : M → List (String × Value)
  dict : M → List (String × Value)

/-- `PYDANTIC_V2 = pydantic.VERSION.startswith("2.")`: the load-time version
detection, as a function of the upstream version string.  `startswith` is
embedded as the prefix test on the character sequence. -/
def PYDANTIC_V2 (VERSION : String) : Bool :=
  VERSION.toList.take 2 == "2.".toList

/-- `parse_obj(model, value)`: dispatches on the detected flag to
`model.model_validate(value)` (v2) or `model.parse_obj(value)` (v1). -/
def parse_obj {M : Type} (v2flag : Bool) (model : ModelClass M) (value : Value) :
    Except PyExc M :=
  if v2flag then model.model_validate value else model.parse_obj value

/-- `field_is_required(field)`: `field.is_required()` (v2) or
`field.required` (v1). -/
def field_is_required (v2flag : Bool) (field : FieldInfo) : Bool :=
  if v2flag then field.is_required else field.required

/-- `field_get_default(field)`: reads `field.get_default()`; under v2 a
result equal to `PydanticUndefined` is normalized to `None`, any other result
is returned unchanged; under v1 the raw result is returned. -/
def field_get_default (v2flag : Bool) (field : FieldInfo) : Value :=
  let value := field.get_default
  if v2flag then
    if value = Value.pyUndef then Value.pyNone else value
  else value

/-- `field_outer_type(field)`: `field.annotation` (v2) or
`field.outer_type_` (v1). -/
def field_outer_type (v2flag : Bool) (field : FieldInfo) : PType :=
  if v2flag then field.annot else field.outer_type_

/-- `get_model_config(model)`: `model.model_config` (v2) or
`model.__config__` (v1). -/
def get_model_config {M : Type} (v2flag : Bool) (model : ModelClass M) : Cfg :=
  if v2flag then model.model_config else model.dunder_config

/-- `get_model_fields(model)`: `model.model_fields` (v2) or
`model.__fields__` (v1); an insertion-ordered mapping from field name to
field metadata. -/
def get_model_fields {M : Type} (v2flag : Bool) (model : ModelClass M) :
    List (String × FieldInfo) :=
  if v2flag then model.model_fields else model.dunder_fields

/-- `model_copy(model)`: `model.model_copy()` (v2) or `model.copy()` (v1). -/
def model_copy {M : Type} (v2flag : Bool) (ops : CopyOps M) (model : M) : M :=
  if v2flag then ops.model_copy model else ops.copy model

/-- `model_json(model)`: `model.model_dump_json()` (v2) or `model.json()`
(v1). -/
def model_json {M : Type} (v2flag : Bool) (ops : DumpOps M) (model : M) : String :=
  if v2flag then ops.model_dump_json model else ops.json model

/-- `model_dump(model)`: `model.model_dump()` (v2) or `model.dict()` (v1). -/
def model_dump {M : Type} (v2flag : Bool) (ops : DumpOps M) (model : M) :
    List (String × Value) :=
  if v2flag then ops.model_dump model else ops.dict model

/-! ### The typing helpers

The façade re-exports `is_union` and `get_args`; both import branches bind
the same v1 implementation (`pydantic.v1.typing` under v2 is the vendored
copy of `pydantic.typing`), so a single definition serves both versions.
That implementation is not part of the repository. -/

/-- Modelled from the spec: `is_union` — "Given a type annotation, report
whether it represents a union of alternative types." -/
def is_union : PType → Bool
  | .unionT _ => true
  | _ => false

/-- Modelled from the spec: `get_args` — "Given a type annotation, report
its constituent type arguments (ordered sequence, possibly empty)." -/
def get_args : PType → List PType
  | .base _ => []
  | .generic _ args => args
  | .unionT args => args

/-! ### The `ConfigDict` binding and module load -/

/-- The run-time binding of the exported name `ConfigDict`: under v2 the
upstream `ConfigDict` constructor, otherwise the literal `None`
(`ConfigDict = None` in the v1 branch). -/
inductive ConfigDictBinding where
  | pyNoneB
  | v2Ctor
  deriving DecidableEq, Repr

/-- The conditional import block binding `ConfigDict` at load time. -/
def loadConfigDict (v2flag : Bool) : ConfigDictBinding :=
  if v2flag then ConfigDictBinding.v2Ctor else ConfigDictBinding.pyNoneB

/-- Calling the object bound to `ConfigDict` with keyword arguments.
Calling `None` raises the interpreter's TypeError (not-callable); calling
the v2 constructor builds the configuration mapping. -/
def callConfigDict : ConfigDictBinding → List (String × Value) → Except PyExc Cfg
  | .pyNoneB, _ => .error PyExc.typeErrorNotCallable
  | .v2Ctor, kwargs => .ok kwargs

/-- The module-level state established when `_compat.py` is imported: the
detected flag and the `ConfigDict` binding.  Nothing else in the module is
mutable. -/
structure PyModule where
  PYDANTIC_V2 : Bool
  configDict : ConfigDictBinding
  deriving DecidableEq, Repr

/-- Importing the module: detect the upstream version once and bind the
conditional names from the resulting flag. -/
def loadModule (VERSION : String) : PyModule :=
  let flag := PYDANTIC_V2 VERSION
  { PYDANTIC_V2 := flag, configDict := loadConfigDict flag }

/-! ### A process as a load followed by a sequence of façade calls

Used to state that the flag is computed once at load time, is never
reassigned, and is the value every later call branches on. -/

/-- Modelled from the spec: a model instance's own data, "its serialized
key/value mapping form" — an insertion-ordered mapping from field name to
field value. -/
def PModel := List (String × Value)

/-- One façade call together with its arguments (model-typed arguments
instantiated at `PModel`). -/
inductive FacadeCall where
  | parseObjC (cls : ModelClass PModel) (value : Value)
  | fieldIsRequiredC (field : FieldInfo)
  | fieldGetDefaultC (field : FieldInfo)
  | fieldOuterTypeC (field : FieldInfo)
  | getModelConfigC (cls : ModelClass PModel)
  | getModelFieldsC (cls : ModelClass PModel)
  | modelCopyC (ops : CopyOps PModel) (m : PModel)
  | modelJsonC (ops : DumpOps PModel) (m : PModel)
  | modelDumpC (ops : DumpOps PModel) (m : PModel)

/-- The result of one façade call. -/
inductive CallResult where
  | exceptR (r : Except PyExc PModel)
  | boolR (b : Bool)
  | valueR (v : Value)
  | typeR (t : PType)
  | cfgR (c : Cfg)
  | fieldsR (fs : List (String × FieldInfo))
  | modelR (m : PModel)
  | strR (s : String)
  | dumpR (d : List (String × Value))

/-- Executing one façade call under a given flag value: each operation
branches on the flag it is handed. -/
def dispatch (flag : Bool) : FacadeCall → CallResult
  | .parseObjC cls value => .exceptR (parse_obj flag cls value)
  | .fieldIsRequiredC field => .boolR (field_is_required flag field)
  | .fieldGetDefaultC field => .valueR (field_get_default flag field)
  | .fieldOuterTypeC field => .typeR (field_outer_type flag field)
  | .getModelConfigC cls => .cfgR (get_model_config flag cls)
  | .getModelFieldsC cls => .fieldsR (get_model_fields flag cls)
  | .modelCopyC ops m => .modelR (model_copy flag ops m)
  | .modelJsonC ops m => .strR (model_json flag ops m)
  | .modelDumpC ops m => .dumpR (model_dump flag ops m)

/-- Executing one façade call against the module state: the call reads
`PYDANTIC_V2` and leaves the module state as it found it (no façade function
assigns to any module-level name). -/
def runCall (mod : PyModule) (c : FacadeCall) : CallResult × PyModule :=
  (dispatch mod.PYDANTIC_V2 c, mod)

/-- Executing a sequence of façade calls, threading the module state. -/
def runCalls (mod : PyModule) : List FacadeCall → List CallResult × PyModule
  | [] => ([], mod)
  | c :: cs =>
    let rm := runCall mod c
    let rest := runCalls rm.2 cs
    (rm.1 :: rest.1, rest.2)

/-! ### Spec-modelled upstream field metadata

The upstream field classes (v2 `FieldInfo`, v1 `ModelField`) are not part of
the repository; the spec describes their contract. -/

/-- Modelled from the spec: a declared model field — its declared type and
its declared default value, `none` when no default was provided ("a field
declared without a default"). -/
structure FieldSpec where
  defaultVal : Option Value
  typ : PType

/-- Modelled from the spec: the field-metadata object the active upstream
version presents for a declared field.  A field is mandatory exactly when no
default was provided; `get_default` on a no-default field yields the
undefined sentinel under v2 and the absence marker `None` under v1 (v1
normalizes the missing default itself); the declared type is exposed as
`annotation` (v2) / `outer_type_` (v1).  Only the version-matching
attributes exist on the real upstream object; the façade reads exactly
those. -/
def FieldSpec.info (v2flag : Bool) (f : FieldSpec) : FieldInfo :=
  { is_required := f.defaultVal.isNone
    required := f.defaultVal.isNone
    get_default :=
      match f.defaultVal with
      | some v => v
      | none => if v2flag then Value.pyUndef else Value.pyNone
    annot := f.typ
    outer_type_ := f.typ }

/-! ### Specification-side readings of the façade contract

`direct_*` is the spec sentence "each façade function returns the same
result as directly invoking the appropriate upstream implementation for the
version under test": the upstream implementation selected by the detected
version, applied directly. -/

/-- Directly invoking the selected upstream validator: `model_validate`
under the v2 flag, `parse_obj` otherwise. -/
def direct_parse_obj {M : Type} (v2flag : Bool) (model : ModelClass M) :
    Value → Except PyExc M :=
  match v2flag with
  | true => model.model_validate
  | false => model.parse_obj

/-- Directly reading the selected upstream required-ness: the `is_required`
method under the v2 flag, the `required` attribute otherwise. -/
def direct_field_is_required (v2flag : Bool) (field : FieldInfo) : Bool :=
  match v2flag with
  | true => field.is_required
  | false => field.required

/-- Directly reading the upstream default with the stated normalization:
"report its effective default value, normalizing an upstream 'no default
provided' sentinel to an absence marker".  Both versions expose
`get_default`; the sentinel, when produced, is mapped to `None`. -/
def direct_field_get_default (field : FieldInfo) : Value :=
  match field.get_default with
  | Value.pyUndef => Value.pyNone
  | v => v

/-- Directly reading the selected upstream declared type: the v2
`annotation` attribute under the v2 flag, `outer_type_` otherwise. -/
def direct_field_outer_type (v2flag : Bool) (field : FieldInfo) : PType :=
  match v2flag with
  | true => field.annot
  | false => field.outer_type_

/-- Directly reading the selected upstream configuration attribute. -/
def direct_get_model_config {M : Type} (v2flag : Bool) (model : ModelClass M) : Cfg :=
  match v2flag with
  | true => model.model_config
  | false => model.dunder_config

/-- Directly reading the selected upstream field registry. -/
def direct_get_model_fields {M : Type} (v2flag : Bool) (model : ModelClass M) :
    List (String × FieldInfo) :=
  match v2flag with
  | true => model.model_fields
  | false => model.dunder_fields

/-- Directly invoking the selected upstream copy method. -/
def direct_model_copy {M : Type} (v2flag : Bool) (ops : CopyOps M) (model : M) : M :=
  match v2flag with
  | true => ops.model_copy model
  | false => ops.copy model

/-- Directly invoking the selected upstream string serializer. -/
def direct_model_json {M : Type} (v2flag : Bool) (ops : DumpOps M) (model : M) : String :=
  match v2flag with
  | true => ops.model_dump_json model
  | false => ops.json model

/-- Directly invoking the selected upstream mapping serializer. -/
def direct_model_dump {M : Type} (v2flag : Bool) (ops : DumpOps M) (model : M) :
    List (String × Value) :=
  match v2flag with
  | true => ops.model_dump model
  | false => ops.dict model

/-! ### Spec-modelled upstream serialization: a JSON codec

The spec's testable property: "For a model instance, confirm
serialized-string form and serialized-mapping form contain equivalent data."
Upstream's serializers are not in the repository; we model them: the mapping
form is the instance's own data, and the string form is the JSON encoding of
that mapping.  The decoder below witnesses "decoding the JSON string yields
the same key/value content as the mapping". -/

/-- The opening brace character of a JSON object. -/
def lbrace : Char := Char.ofNat 123

/-- The closing brace character of a JSON object. -/
def rbrace : Char := Char.ofNat 125

/-- JSON string escaping: quote and backslash are backslash-escaped. -/
def escChars : List Char → List Char
  | [] => []
  | c :: cs =>
    if c = '"' ∨ c = '\\' then '\\' :: c :: escChars cs
    else c :: escChars cs

/-- The decimal digit character for `d < 10`. -/
def digitChar (d : Nat) : Char := Char.ofNat (48 + d)

/-- Decimal encoding of a natural number, most significant digit first. -/
def encNat (n : Nat) : List Char :=
  if n = 0 then [digitChar 0] else ((Nat.digits 10 n).map digitChar).reverse

/-- Decimal encoding of an integer, with a leading minus sign when
negative. -/
def encInt (n : Int) : List Char :=
  if n < 0 then '-' :: encNat n.natAbs else encNat n.natAbs

/-- JSON encoding of a single value.  The undefined sentinel never occurs in
serializable model data (the serialization theorems exclude it); its clause
is arbitrary. -/
def encValue : Value → List Char
  | .pyNone => ['n', 'u', 'l', 'l']
  | .pyUndef => []
  | .pyBool true => ['t', 'r', 'u', 'e']
  | .pyBool false => ['f', 'a', 'l', 's', 'e']
  | .pyInt n => encInt n
  | .pyStr s => '"' :: (escChars s.toList ++ ['"'])

/-- JSON encoding of one `"key":value` member. -/
def encMember (k : String) (v : Value) : List Char :=
  '"' :: (escChars k.toList ++ '"' :: ':' :: encValue v)

/-- JSON encoding of the remaining members, each preceded by a comma. -/
def encTail : List (String × Value) → List Char
  | [] => []
  | (k, v) :: rest => ',' :: (encMember k v ++ encTail rest)

/-- JSON encoding of an object from its ordered key/value mapping. -/
def encodeObjChars : List (String × Value) → List Char
  | [] => [lbrace, rbrace]
  | (k, v) :: rest => lbrace :: (encMember k v ++ (encTail rest ++ [rbrace]))

/-- Modelled from the spec: the serialized string form of a model instance —
the JSON encoding of its serialized mapping form. -/
def pModelJsonStr (m : PModel) : String :=
  (encodeObjChars m).asString

/-- Modelled from the spec: the upstream serializers of a model instance.
Under either version the mapping form is the instance's own data and the
string form is its JSON encoding. -/
def pDumpOps : DumpOps PModel :=
  { model_dump_json := pModelJsonStr
    json := pModelJsonStr
    model_dump := fun m => m
    dict := fun m => m }

/-- Expect a literal character sequence; return the remaining input. -/
def parseLit : List Char → List Char → Option (List Char)
  | [], s => some s
  | _ :: _, [] => none
  | l :: ls, c :: cs => if l = c then parseLit ls cs else none

/-- Parse the body of a JSON string after the opening quote: unescape, stop
at the closing quote, return content and remaining input. -/
def parseStrRest : List Char → Option (List Char × List Char)
  | [] => none
  | c :: rest =>
    if c = '"' then some ([], rest)
    else if c = '\\' then
      match rest with
      | [] => none
      | d :: rest2 => (parseStrRest rest2).map fun p => (d :: p.1, p.2)
    else (parseStrRest rest).map fun p => (c :: p.1, p.2)

/-- The numeric value of a decimal digit character. -/
def charVal (c : Char) : Nat := c.toNat - 48

/-- Split off the leading run of decimal digit characters. -/
def takeDigits : List Char → List Char × List Char
  | [] => ([], [])
  | c :: rest =>
    if c.isDigit then
      let p := takeDigits rest
      (c :: p.1, p.2)
    else ([], c :: rest)

/-- The natural number denoted by a most-significant-first digit string. -/
def charsToNat (ds : List Char) : Nat :=
  Nat.ofDigits 10 ((ds.map charVal).reverse)

/-- Parse a JSON integer (optional minus sign, then digits). -/
def parseNum : List Char → Option (Int × List Char)
  | [] => none
  | c :: rest =>
    if c = '-' then
      let p := takeDigits rest
      if p.1.isEmpty then none else some (-(charsToNat p.1 : Int), p.2)
    else
      let p := takeDigits (c :: rest)
      if p.1.isEmpty then none else some ((charsToNat p.1 : Int), p.2)

/-- Parse a single JSON value (null, booleans, strings, integers). -/
def parseValue (s : List Char) : Option (Value × List Char) :=
  match s with
  | [] => none
  | c :: rest =>
    if c = 'n' then (parseLit ['u', 'l', 'l'] rest).map fun r => (Value.pyNone, r)
    else if c = 't' then (parseLit ['r', 'u', 'e'] rest).map fun r => (Value.pyBool true, r)
    else if c = 'f' then
      (parseLit ['a', 'l', 's', 'e'] rest).map fun r => (Value.pyBool false, r)
    else if c = '"' then
      (parseStrRest rest).map fun p => (Value.pyStr p.1.asString, p.2)
    else (parseNum (c :: rest)).map fun p => (Value.pyInt p.1, p.2)

/-- Parse a nonempty member list and the closing brace, fuelled by an upper
bound on the number of members. -/
def parseMembers : Nat → List Char → Option (List (String × Value) × List Char)
  | 0, _ => none
  | fuel + 1, s =>
    match s with
    | [] => none
    | c :: rest =>
      if c = '"' then
        match parseStrRest rest with
        | none => none
        | some (kcs, r1) =>
          match r1 with
          | [] => none
          | c2 :: r2 =>
            if c2 = ':' then
              match parseValue r2 with
              | none => none
              | some (v, r3) =>
                match r3 with
                | [] => none
                | c3 :: r4 =>
                  if c3 = ',' then
                    match parseMembers fuel r4 with
                    | none => none
                    | some (ms, r5) => some ((kcs.asString, v) :: ms, r5)
                  else if c3 = rbrace then some ([(kcs.asString, v)], r4)
                  else none
            else none
      else none

/-- Parse a JSON object from a character list. -/
def decodeObjChars (s : List Char) : Option (List (String × Value) × List Char) :=
  match s with
  | [] => none
  | c :: rest =>
    if c = lbrace then
      match rest with
      | [] => none
      | c2 :: rest2 =>
        if c2 = rbrace then some ([], rest2)
        else parseMembers (c2 :: rest2).length (c2 :: rest2)
    else none

/-- Decode a JSON object string into its ordered key/value mapping,
requiring the whole input to be consumed. -/
def decodeObj (s : String) : Option (List (String × Value)) :=
  match decodeObjChars s.toList with
  | some (ms, []) => some ms
  | _ => none

/-- A mapping is serializable when no value is the undefined sentinel. -/
def Serializable (m : List (String × Value)) : Prop :=
  ∀ kv ∈ m, kv.2 ≠ Value.pyUndef

instance : DecidablePred Serializable := fun m =>
  inferInstanceAs (Decidable (∀ kv ∈ m, kv.2 ≠ Value.pyUndef))

/-! ### Spec-modelled upstream copying: a store of model objects

"Given a model instance, produce a shallow copy."  To state sharing versus
duplication we make object identity explicit: a store is a list of objects
addressed by position; an object maps field names to the addresses of the
nested values. -/

/-- An object in the store: field name to address of the nested value. -/
structure HObj where
  fieldsOf : List (String × Nat)

/-- Modelled from the spec: a shallow copy — allocate a fresh object whose
field map equals the original's, so every nested address is shared; the
store's existing objects are untouched. -/
def shallowCopy (h : List HObj) (a : Nat) : List HObj × Nat :=
  match h[a]? with
  | some o => (h ++ [o], h.length)
  | none => (h, a)

/-- Modelled from the spec: both upstream copy methods (`model_copy` under
v2, `copy` under v1) perform a shallow copy of the instance. -/
def storeCopyOps : CopyOps (List HObj × Nat) :=
  { model_copy := fun p => shallowCopy p.1 p.2
    copy := fun p => shallowCopy p.1 p.2 }

/-! ### Auxiliary predicates and concrete sample inputs -/

/-- The input does not begin with a decimal digit (so a digit run just
before it ends exactly there). -/
def noDigitHead : List Char → Bool
  | [] => true
  | c :: _ => !c.isDigit

/-- A concrete field-metadata object: an optional `int` field with default
`3`. -/
def fld0 : FieldInfo :=
  { is_required := false
    required := false
    get_default := Value.pyInt 3
    annot := PType.base "int"
    outer_type_ := PType.base "int" }

/-- A concrete model class over `PModel`: validation wraps the input value
in a one-field mapping. -/
def cls0 : ModelClass PModel :=
  { model_validate := fun v => Except.ok [("x", v)]
    parse_obj := fun v => Except.ok [("x", v)]
    model_config := []
    dunder_config := []
    model_fields := [("x", fld0)]
    dunder_fields := [("x", fld0)] }

/-- A concrete model instance mapping. -/
def sampleModel : PModel :=
  [("a", Value.pyInt 5), ("b", Value.pyStr "hi"), ("c", Value.pyNone),
   ("d", Value.pyInt (-12)), ("e", Value.pyBool true)]

/-- A concrete store: object 0 has a nested child at address 1. -/
def sampleStore : List HObj :=
  [{ fieldsOf := [("child", 1)] }, { fieldsOf := [] }]



/-! ## Helper lemmas -/

/-- Under v1 the façade returns the raw upstream default; under either
version the result agrees with the spec-side normalized reading whenever the
v1 raw value is not the sentinel (which, upstream, only exists under v2). -/
lemma field_get_default_eq_direct (v2flag : Bool) (field : FieldInfo)
    (h : v2flag = false → field.get_default ≠ Value.pyUndef) :
    field_get_default v2flag field = direct_field_get_default field := by
  cases v2flag with
  | true =>
    cases hgd : field.get_default <;>
      simp [field_get_default, direct_field_get_default, hgd]
  | false =>
    cases hgd : field.get_default <;>
      simp_all [field_get_default, direct_field_get_default, hgd]

/-- A façade call leaves the module state unchanged and dispatches on the
flag stored in it. -/
lemma runCalls_pure (mod : PyModule) (cs : List FacadeCall) :
    runCalls mod cs = (cs.map (dispatch mod.PYDANTIC_V2), mod) := by
  induction cs with
  | nil => rfl
  | cons c cs ih => simp [runCalls, runCall, ih]

/-! ## The claims -/

/-- Claim C1: every façade operation (`parse_obj`, `field_is_required`,
`field_get_default` with the stated normalization, `field_outer_type`,
`get_model_config`, `get_model_fields`, `model_copy`, `model_json`,
`model_dump`) returns, on every input, the result of directly invoking the
upstream implementation selected by the detected version: the v2 method
under the v2 flag, the v1 method otherwise.  (For `field_get_default`, the
v1 branch agrees with the normalized reading on every value the v1 upstream
can produce, i.e. anything but the v2-only sentinel.) -/
theorem facade_refines_direct_upstream (v2flag : Bool) :
    (∀ (M : Type) (cls : ModelClass M) (value : Value),
        parse_obj v2flag cls value = direct_parse_obj v2flag cls value)
    ∧ (∀ field : FieldInfo,
        field_is_required v2flag field = direct_field_is_required v2flag field)
    ∧ (∀ field : FieldInfo, (v2flag = false → field.get_default ≠ Value.pyUndef) →
        field_get_default v2flag field = direct_field_get_default field)
    ∧ (∀ field : FieldInfo,
        field_outer_type v2flag field = direct_field_outer_type v2flag field)
    ∧ (∀ (M : Type) (cls : ModelClass M),
        get_model_config v2flag cls = direct_get_model_config v2flag cls)
    ∧ (∀ (M : Type) (cls : ModelClass M),
        get_model_fields v2flag cls = direct_get_model_fields v2flag cls)
    ∧ (∀ (M : Type) (ops : CopyOps M) (m : M),
        model_copy v2flag ops m = direct_model_copy v2flag ops m)
    ∧ (∀ (M : Type) (ops : DumpOps M) (m : M),
        model_json v2flag ops m = direct_model_json v2flag ops m)
    ∧ (∀ (M : Type) (ops : DumpOps M) (m : M),
        model_dump v2flag ops m = direct_model_dump v2flag ops m) := by
  refine ⟨fun M cls value => ?_, fun field => ?_,
    fun field h => field_get_default_eq_direct v2flag field h, fun field => ?_,
    fun M cls => ?_, fun M cls => ?_, fun M ops m => ?_, fun M ops m => ?_,
    fun M ops m => ?_⟩ <;>
  cases v2flag <;> rfl

/-- Witness for C1: the hypothesis of the `field_get_default` conjunct is
discharged at the concrete field `fld0` under the v1 flag. -/
theorem facade_refines_direct_upstream_witness :
    field_get_default false fld0 = direct_field_get_default fld0 :=
  (facade_refines_direct_upstream false).2.2.1 fld0 (fun _ => by decide)

/-- Claim C2: for a field declared with no default, `field_get_default`
returns the absence marker `None` — and in particular never the upstream
undefined sentinel — under either detected version. -/
theorem field_get_default_absence_marker (v2flag : Bool) (t : PType) :
    field_get_default v2flag (FieldSpec.info v2flag ⟨none, t⟩) = Value.pyNone
    ∧ field_get_default v2flag (FieldSpec.info v2flag ⟨none, t⟩) ≠ Value.pyUndef := by
  cases v2flag <;> exact ⟨rfl, fun hcontra => Value.noConfusion hcontra⟩

/-- Claim C3: `field_is_required` reports exactly whether the field is
mandatory: `true` for a field declared without a default, `false` for a
field declared with a default value, under either detected version.  (The
declared default is an ordinary value, not the upstream sentinel.) -/
theorem field_is_required_iff_no_default (v2flag : Bool) (fs : FieldSpec)
    (_hwf : fs.defaultVal ≠ some Value.pyUndef) :
    field_is_required v2flag (fs.info v2flag) = fs.defaultVal.isNone := by
  cases v2flag <;> rfl

/-- Witness for C3: a field with declared default `0` is reported not
required under the v2 flag. -/
theorem field_is_required_iff_no_default_witness :
    field_is_required true
      (FieldSpec.info true ⟨some (Value.pyInt 0), PType.base "int"⟩) = false :=
  field_is_required_iff_no_default true ⟨some (Value.pyInt 0), PType.base "int"⟩
    (by decide)

/-- Claim C4: `parse_obj` fails exactly when the delegated upstream call
fails, with the very same error, and succeeds exactly when the delegate
succeeds, with the very same result: the façade neither adds, wraps, nor
suppresses failures. -/
theorem parse_obj_error_passthrough {M : Type} (v2flag : Bool)
    (cls : ModelClass M) (value : Value) :
    (∀ e : PyExc, parse_obj v2flag cls value = Except.error e ↔
        direct_parse_obj v2flag cls value = Except.error e)
    ∧ (∀ m : M, parse_obj v2flag cls value = Except.ok m ↔
        direct_parse_obj v2flag cls value = Except.ok m) := by
  have h : parse_obj v2flag cls value = direct_parse_obj v2flag cls value := by
    cases v2flag <;> rfl
  rw [h]
  exact ⟨fun _ => Iff.rfl, fun _ => Iff.rfl⟩

/-- Claim C5: loading the module detects the version exactly once — the flag
stored in the module state is the detection result — and a whole sequence of
façade calls leaves that state untouched while every single call branches on
that same load-time flag value. -/
theorem version_detected_once (VERSION : String) (calls : List FacadeCall) :
    (loadModule VERSION).PYDANTIC_V2 = PYDANTIC_V2 VERSION
    ∧ (runCalls (loadModule VERSION) calls).2 = loadModule VERSION
    ∧ (runCalls (loadModule VERSION) calls).1 =
        calls.map (dispatch (PYDANTIC_V2 VERSION)) := by
  have hr := runCalls_pure (loadModule VERSION) calls
  exact ⟨rfl, by rw [hr], by rw [hr]; rfl⟩

/-- Claim C7: on a union annotation `is_union` answers `true` and `get_args`
returns the constituent alternatives in order (in particular both
alternatives of a two-way union, in order), while a non-generic annotation
has no type arguments. -/
theorem is_union_get_args_on_unions (args : List PType) :
    is_union (PType.unionT args) = true
    ∧ get_args (PType.unionT args) = args
    ∧ (∀ a b : PType, get_args (PType.unionT [a, b]) = [a, b])
    ∧ (∀ name : String, get_args (PType.base name) = []) :=
  ⟨rfl, rfl, fun _ _ => rfl, fun _ => rfl⟩

/-- Claim C8: `model_copy` on a store object returns exactly the delegated
upstream copy (no further effect), and that copy is shallow: the fresh
object carries the same field map — equal field values, every nested address
shared, not duplicated — the fresh address is new, and every object already
in the store, the original included, is unchanged. -/
theorem model_copy_shallow_frame (v2flag : Bool) (h : List HObj) (a : Nat)
    (ha : a < h.length) :
    model_copy v2flag storeCopyOps (h, a) = direct_model_copy v2flag storeCopyOps (h, a)
    ∧ (model_copy v2flag storeCopyOps (h, a)).1[(model_copy v2flag storeCopyOps (h, a)).2]?
        = h[a]?
    ∧ (model_copy v2flag storeCopyOps (h, a)).2 ≠ a
    ∧ ∀ i, i < h.length → (model_copy v2flag storeCopyOps (h, a)).1[i]? = h[i]? := by
  have hdel : model_copy v2flag storeCopyOps (h, a) = shallowCopy h a := by
    cases v2flag <;> rfl
  have hget : h[a]? = some h[a] := List.getElem?_eq_getElem ha
  have hsc : shallowCopy h a = (h ++ [h[a]], h.length) := by
    rw [shallowCopy, hget]
  refine ⟨by cases v2flag <;> rfl, ?_, ?_, ?_⟩
  · rw [hdel, hsc, List.getElem?_concat_length, hget]
  · rw [hdel, hsc]
    omega
  · intro i hi
    rw [hdel, hsc, List.getElem?_append, if_pos hi]

/-- Witness for C8: copying object 0 of the concrete store allocates a fresh
address. -/
theorem model_copy_shallow_frame_witness :
    (model_copy true storeCopyOps (sampleStore, 0)).2 ≠ 0 :=
  (model_copy_shallow_frame true sampleStore 0 (by decide)).2.2.1

/-- Claim C9: when the detected version is not v2, the module binds the
exported name `ConfigDict` to `None` (no v1 substitute is provided), so any
runtime call of `ConfigDict` as a constructor raises the interpreter's
not-callable TypeError. -/
theorem configdict_none_under_v1 (VERSION : String)
    (hv : PYDANTIC_V2 VERSION = false) :
    (loadModule VERSION).configDict = ConfigDictBinding.pyNoneB
    ∧ ∀ kwargs : List (String × Value),
        callConfigDict (loadModule VERSION).configDict kwargs =
          Except.error PyExc.typeErrorNotCallable := by
  have hb : (loadModule VERSION).configDict = ConfigDictBinding.pyNoneB := by
    simp [loadModule, loadConfigDict, hv]
  exact ⟨hb, fun kwargs => by rw [hb]; rfl⟩

/-- Witness for C9: under upstream version `"1.10.13"` the binding is `None`
and calling it fails. -/
theorem configdict_none_under_v1_witness :
    (loadModule "1.10.13").configDict = ConfigDictBinding.pyNoneB :=
  (configdict_none_under_v1 "1.10.13" (by decide)).1

/-- Claim C10: under the v2 branch, `field_get_default` returns `None` both
for a field with no declared default (upstream yields the sentinel) and for
a field whose declared default is `None` itself, so the two declarations are
indistinguishable to a caller. -/
theorem v2_default_none_indistinguishable (t u : PType) :
    field_get_default true (FieldSpec.info true ⟨none, t⟩) = Value.pyNone
    ∧ field_get_default true (FieldSpec.info true ⟨some Value.pyNone, u⟩) = Value.pyNone
    ∧ field_get_default true (FieldSpec.info true ⟨none, t⟩)
        = field_get_default true (FieldSpec.info true ⟨some Value.pyNone, u⟩) :=
  ⟨rfl, rfl, rfl⟩

/-! ## The JSON roundtrip (for claim C6) -/

/-- Expecting a literal that is an exact prefix of the input succeeds and
returns the remainder. -/
lemma parseLit_append (l r : List Char) : parseLit l (l ++ r) = some r := by
  induction l with
  | nil => rfl
  | cons c cs ih => simp [parseLit, ih]

/-- Unescaping inverts escaping: parsing an escaped string body up to its
closing quote recovers the original characters and the remainder. -/
lemma parseStrRest_escChars (cs r : List Char) :
    parseStrRest (escChars cs ++ '"' :: r) = some (cs, r) := by
  induction cs with
  | nil =>
    rw [escChars, List.nil_append, parseStrRest.eq_def]
    simp
  | cons c cs ih =>
    rcases Decidable.em (c = '"' ∨ c = '\\') with hc | hc
    · have he : escChars (c :: cs) = '\\' :: c :: escChars cs := by
        simp only [escChars]
        rw [if_pos hc]
      rw [he, List.cons_append, List.cons_append, parseStrRest.eq_def]
      simp [ih]
    · push_neg at hc
      have he : escChars (c :: cs) = c :: escChars cs := by
        simp only [escChars]
        rw [if_neg (by push_neg; exact hc)]
      rw [he, List.cons_append, parseStrRest.eq_def]
      simp [hc.1, hc.2, ih]

/-- The digit character of `d < 10` is a decimal digit. -/
lemma isDigit_digitChar (d : Nat) (hd : d < 10) : (digitChar d).isDigit = true := by
  interval_cases d <;> decide

/-- Reading back the digit character of `d < 10` gives `d`. -/
lemma charVal_digitChar (d : Nat) (hd : d < 10) : charVal (digitChar d) = d := by
  interval_cases d <;> decide

/-- Every character of the decimal encoding is a digit. -/
lemma encNat_digits (n : Nat) : ∀ c ∈ encNat n, c.isDigit = true := by
  intro c hc
  rw [encNat] at hc
  by_cases hn : n = 0
  · rw [if_pos hn] at hc
    simp only [List.mem_singleton] at hc
    rw [hc]
    exact isDigit_digitChar 0 (by omega)
  · rw [if_neg hn] at hc
    rw [List.mem_reverse, List.mem_map] at hc
    obtain ⟨d, hd, hdc⟩ := hc
    rw [← hdc]
    exact isDigit_digitChar d (Nat.digits_lt_base (by omega) hd)

/-- The decimal encoding of a natural number is never empty. -/
lemma encNat_ne_nil (n : Nat) : encNat n ≠ [] := by
  rw [encNat]
  by_cases hn : n = 0
  · rw [if_pos hn]
    exact List.cons_ne_nil _ _
  · rw [if_neg hn]
    simp only [ne_eq, List.reverse_eq_nil_iff, List.map_eq_nil_iff]
    exact Nat.digits_ne_nil_iff_ne_zero.mpr hn

/-- Decimal decoding inverts decimal encoding of a natural number. -/
lemma charsToNat_encNat (n : Nat) : charsToNat (encNat n) = n := by
  by_cases hn : n = 0
  · rw [hn]
    decide
  · rw [charsToNat, encNat, if_neg hn, List.map_reverse, List.reverse_reverse]
    rw [List.map_map]
    have hmap : (Nat.digits 10 n).map (charVal ∘ digitChar) = (Nat.digits 10 n).map id :=
      List.map_congr_left
        (fun d hd => charVal_digitChar d (Nat.digits_lt_base (by omega) hd))
    rw [hmap, List.map_id, Nat.ofDigits_digits]

/-- Reading the digit run of the input splits a digit-only block from a
continuation that does not begin with a digit. -/
lemma takeDigits_append (ds r : List Char) (hds : ∀ c ∈ ds, c.isDigit = true)
    (hr : noDigitHead r = true) : takeDigits (ds ++ r) = (ds, r) := by
  induction ds with
  | nil =>
    rw [List.nil_append]
    cases r with
    | nil => rfl
    | cons c r2 =>
      rw [noDigitHead] at hr
      simp only [Bool.not_eq_eq_eq_not, Bool.not_true] at hr
      rw [takeDigits.eq_def]
      simp [hr]
  | cons c ds ih =>
    have hc : c.isDigit = true := hds c (List.mem_cons_self c ds)
    rw [List.cons_append, takeDigits.eq_def]
    simp only [hc, if_true]
    rw [ih (fun d hd => hds d (List.mem_cons_of_mem c hd))]

/-- Parsing inverts the decimal integer encoding, up to a continuation that
does not begin with a digit. -/
lemma parseNum_encInt (n : Int) (r : List Char) (hr : noDigitHead r = true) :
    parseNum (encInt n ++ r) = some (n, r) := by
  by_cases hn : n < 0
  · rw [encInt, if_pos hn, List.cons_append, parseNum.eq_def]
    simp only [if_pos rfl]
    rw [takeDigits_append (encNat n.natAbs) r (encNat_digits n.natAbs) hr]
    cases hsh : encNat n.natAbs with
    | nil => exact absurd hsh (encNat_ne_nil n.natAbs)
    | cons c tail =>
      simp only [List.isEmpty_cons, Bool.false_eq_true, if_false]
      rw [← hsh, charsToNat_encNat]
      have : -(n.natAbs : Int) = n := by omega
      rw [this]
      simp
  · cases hsh : encNat n.natAbs with
    | nil => exact absurd hsh (encNat_ne_nil n.natAbs)
    | cons c tail =>
      have hcd : c.isDigit = true := by
        refine encNat_digits n.natAbs c ?_
        rw [hsh]
        exact List.mem_cons_self c tail
      have hcm : c ≠ '-' := by
        intro h
        rw [h] at hcd
        exact absurd hcd (by decide)
      rw [encInt, if_neg hn, hsh, List.cons_append, parseNum.eq_def]
      simp only [hcm, if_false]
      rw [← List.cons_append, ← hsh,
        takeDigits_append (encNat n.natAbs) r (encNat_digits n.natAbs) hr]
      rw [hsh]
      simp only [List.isEmpty_cons, Bool.false_eq_true, if_false]
      rw [← hsh, charsToNat_encNat]
      have : (n.natAbs : Int) = n := by omega
      rw [this]

/-- Parsing inverts the integer value encoding. -/
lemma parseValue_encInt (n : Int) (r : List Char) (hr : noDigitHead r = true) :
    parseValue (encInt n ++ r) = some (Value.pyInt n, r) := by
  have hp := parseNum_encInt n r hr
  by_cases hn : n < 0
  · rw [encInt, if_pos hn, List.cons_append] at hp ⊢
    rw [parseValue]
    simp [hp]
  · cases hsh : encNat n.natAbs with
    | nil => exact absurd hsh (encNat_ne_nil n.natAbs)
    | cons c tail =>
      have hcd : c.isDigit = true := by
        refine encNat_digits n.natAbs c ?_
        rw [hsh]
        exact List.mem_cons_self c tail
      have hc1 : c ≠ 'n' := by intro h; rw [h] at hcd; exact absurd hcd (by decide)
      have hc2 : c ≠ 't' := by intro h; rw [h] at hcd; exact absurd hcd (by decide)
      have hc3 : c ≠ 'f' := by intro h; rw [h] at hcd; exact absurd hcd (by decide)
      have hc4 : c ≠ '"' := by intro h; rw [h] at hcd; exact absurd hcd (by decide)
      rw [encInt, if_neg hn, hsh, List.cons_append] at hp ⊢
      rw [parseValue]
      simp only [hc1, hc2, hc3, hc4, if_false]
      rw [hp]
      rfl

/-- Parsing inverts the value encoding for every serializable value, up to a
continuation that does not begin with a digit. -/
lemma parseValue_encValue (v : Value) (hv : v ≠ Value.pyUndef) (r : List Char)
    (hr : noDigitHead r = true) :
    parseValue (encValue v ++ r) = some (v, r) := by
  cases v with
  | pyNone =>
    rw [encValue]
    simp [parseValue, parseLit]
  | pyUndef => exact absurd rfl hv
  | pyBool b =>
    cases b with
    | true =>
      rw [encValue]
      simp [parseValue, parseLit]
    | false =>
      rw [encValue]
      simp [parseValue, parseLit]
  | pyInt n => exact parseValue_encInt n r hr
  | pyStr s =>
    rw [encValue, List.cons_append, List.append_assoc, List.singleton_append]
    rw [parseValue]
    simp only [reduceIte]
    rw [parseStrRest_escChars s.toList r]
    rfl

/-- Parsing inverts the member-list encoding: one encoded member, the
encoded remaining members, and the closing brace parse back to the full
ordered member list, given fuel above the member count. -/
lemma parseMembers_enc (ms : List (String × Value)) :
    ∀ fuel : Nat, ms.length < fuel →
      ∀ (k : String) (v : Value) (r : List Char),
        v ≠ Value.pyUndef → Serializable ms →
        parseMembers fuel (encMember k v ++ (encTail ms ++ rbrace :: r)) =
          some ((k, v) :: ms, r) := by
  induction ms with
  | nil =>
    intro fuel hfuel k v r hv _hms
    cases fuel with
    | zero => omega
    | succ f =>
      have hpv := parseValue_encValue v hv (rbrace :: r) rfl
      rw [encTail, List.nil_append, encMember, List.cons_append, List.append_assoc,
        List.cons_append, List.cons_append]
      rw [parseMembers]
      simp only [reduceIte]
      rw [parseStrRest_escChars]
      simp only [reduceIte]
      rw [hpv]
      simp only []
      have hne : rbrace ≠ ',' := by decide
      simp only [hne, if_false, if_pos rfl]
      rfl
  | cons kv ms ih =>
    intro fuel hfuel k v r hv hms
    obtain ⟨k2, v2⟩ := kv
    cases fuel with
    | zero => omega
    | succ f =>
      have hv2 : v2 ≠ Value.pyUndef := hms (k2, v2) (List.mem_cons_self _ _)
      have hms2 : Serializable ms := fun kv2 hkv2 => hms kv2 (List.mem_cons_of_mem _ hkv2)
      have hih := ih f (by simp at hfuel ⊢; omega) k2 v2 r hv2 hms2
      have hpv := parseValue_encValue v hv
        (',' :: (encMember k2 v2 ++ (encTail ms ++ rbrace :: r))) rfl
      rw [encTail, List.cons_append, List.append_assoc, encMember,
        List.cons_append, List.append_assoc, List.cons_append, List.cons_append]
      rw [parseMembers]
      simp only [reduceIte]
      rw [parseStrRest_escChars]
      simp only [reduceIte]
      rw [hpv]
      simp only [reduceIte]
      rw [hih]
      rfl

/-- Each encoded member takes at least one character. -/
lemma encTail_length (ms : List (String × Value)) :
    ms.length ≤ (encTail ms).length := by
  induction ms with
  | nil => simp [encTail]
  | cons kv rest ih =>
    obtain ⟨k, v⟩ := kv
    rw [encTail]
    simp only [List.length_cons, List.length_append]
    omega

/-- Decoding the JSON encoding of a serializable mapping recovers exactly
that mapping. -/
lemma decode_encode (m : PModel) (hm : Serializable m) :
    decodeObj (pModelJsonStr m) = some m := by
  cases m with
  | nil => rfl
  | cons kv rest =>
    obtain ⟨k, v⟩ := kv
    have hv : v ≠ Value.pyUndef := hm (k, v) (List.mem_cons_self _ _)
    have hrest : Serializable rest := fun kv2 h2 => hm kv2 (List.mem_cons_of_mem _ h2)
    have hlen : rest.length <
        (encMember k v ++ (encTail rest ++ rbrace :: ([] : List Char))).length := by
      have h1 := encTail_length rest
      simp only [List.length_append, List.length_cons, List.length_nil]
      omega
    have hpm := parseMembers_enc rest _ hlen k v [] hv hrest
    have hx : encMember k v ++ (encTail rest ++ rbrace :: ([] : List Char)) =
        '"' :: (escChars k.toList ++
          ('"' :: ':' :: encValue v ++ (encTail rest ++ rbrace :: []))) := by
      rw [encMember, List.cons_append, List.append_assoc]
    rw [decodeObj]
    have htl : (pModelJsonStr ((k, v) :: rest)).toList = encodeObjChars ((k, v) :: rest) := rfl
    rw [htl, encodeObjChars, hx]
    rw [decodeObjChars]
    simp only [reduceIte]
    rw [← hx]
    rw [hpm]
    have hq : ('"' : Char) ≠ rbrace := by decide
    rw [if_neg hq]

/-- Claim C6: for a model instance (with serializable data), the serialized
string form produced by `model_json` and the serialized mapping form
produced by `model_dump` contain equivalent data — decoding the JSON string
yields exactly the key/value mapping — under either detected version. -/
theorem model_json_dump_equivalent (v2flag : Bool) (m : PModel)
    (hm : Serializable m) :
    decodeObj (model_json v2flag pDumpOps m) = some (model_dump v2flag pDumpOps m) := by
  have h1 : model_json v2flag pDumpOps m = pModelJsonStr m := by
    cases v2flag <;> rfl
  have h2 : model_dump v2flag pDumpOps m = m := by
    cases v2flag <;> rfl
  rw [h1, h2]
  exact decode_encode m hm

/-- Witness for C6: the concrete sample instance (ints, strings, `None`, a
negative number, a boolean) roundtrips from string form back to mapping
form. -/
theorem model_json_dump_equivalent_witness :
    decodeObj (model_json true pDumpOps sampleModel) =
      some (model_dump true pDumpOps sampleModel) :=
  model_json_dump_equivalent true sampleModel (by decide)
